import Mathlib

/-!
# go-ldap-client: a shallow embedding of `ldap-client.go`

The client keeps one field of mutable state, `Conn`, and talks to the
directory through the protocol library (`ldap.Dial`, `Conn.StartTLS`,
`ldap.DialTLS`, `Conn.Bind`, `Conn.Search`, `Conn.Close`).  The library is
not part of the repository, so its answers are a parameter (`Collab`): each
answer may depend on the whole history of calls made so far.  The history
(`List Call`, oldest call first) is threaded through every operation, which
makes "which calls were made, in which order" a statement about a list.

A method call on a nil `*ldap.Conn` is a run-time nil dereference in Go; the
embedding keeps it as the outcome `Outcome.nilDeref`.
-/

set_option autoImplicit false

namespace LdapClient

/-! ## Data model -/

/-- A Go `error` value: either one made here with `errors.New`, or one handed
back by the protocol library. -/
inductive Error where
  | New (text : String)
  | ldap (text : String)
  deriving DecidableEq, Repr

/-- The fields of `tls.Config` that `Connect` sets. -/
structure TLSConfig where
  InsecureSkipVerify : Bool := false
  ServerName : String := ""
  Certificates : List Nat := []
  deriving DecidableEq, Repr

/-- Modelled from the spec: the directory entry type of the protocol library
(`ldap.Entry`), "a distinguished name plus a mapping from attribute name to
its (first) string value". -/
structure Entry where
  DN : String
  Attributes : List (String × String)
  deriving DecidableEq, Repr

/-- Modelled from the spec: `Entry.GetAttributeValue` of the protocol library,
the entry's value for the attribute, the empty string when the entry lacks
it. -/
def Entry.GetAttributeValue (e : Entry) (attr : String) : String :=
  match e.Attributes.lookup attr with
  | some v => v
  | none => ""

/-- The result of a search: `ldap.SearchResult`, of which the client reads
only `Entries`. -/
structure SearchResult where
  Entries : List Entry
  deriving DecidableEq, Repr

inductive Scope where
  | BaseObject
  | SingleLevel
  | WholeSubtree
  deriving DecidableEq, Repr

inductive DerefAliases where
  | NeverDerefAliases
  | DerefInSearching
  | DerefFindingBaseObj
  | DerefAlways
  deriving DecidableEq, Repr

/-- The request built by `ldap.NewSearchRequest`, argument by argument. -/
structure SearchRequest where
  BaseDN : String
  Scope : Scope
  DerefAliases : DerefAliases
  SizeLimit : Int
  TimeLimit : Int
  TypesOnly : Bool
  Filter : String
  Attributes : List String
  Controls : List String
  deriving DecidableEq, Repr

def NewSearchRequest (BaseDN : String) (scope : Scope) (deref : DerefAliases)
    (SizeLimit TimeLimit : Int) (TypesOnly : Bool) (Filter : String)
    (Attributes : List String) (Controls : List String) : SearchRequest :=
  { BaseDN := BaseDN, Scope := scope, DerefAliases := deref, SizeLimit := SizeLimit,
    TimeLimit := TimeLimit, TypesOnly := TypesOnly, Filter := Filter,
    Attributes := Attributes, Controls := Controls }

/-- One call made on the protocol library.  Connections are handles (`Nat`). -/
inductive Call where
  | dial (network address : String)
  | startTLS (c : Nat) (config : TLSConfig)
  | dialTLS (network address : String) (config : TLSConfig)
  | bind (c : Nat) (username password : String)
  | search (c : Nat) (req : SearchRequest)
  | close (c : Nat)
  deriving DecidableEq, Repr

/-- The protocol library and `fmt.Sprintf`, as seen by the client.  The first
argument of each operation is the history of calls made before this one.
`close` returns nothing, so it needs no field. -/
structure Collab where
  dial : List Call → String → String → Except Error Nat
  startTLS : List Call → Nat → TLSConfig → Option Error
  dialTLS : List Call → String → String → TLSConfig → Except Error Nat
  bind : List Call → Nat → String → String → Option Error
  search : List Call → Nat → SearchRequest → Except Error SearchResult
  /-- The text of `fmt.Sprintf(format, arg)` for one string argument. -/
  sprintf : String → String → String

/-- The struct `LDAPClient`.  `Conn` is the pointer field: `none` is nil. -/
structure LDAPClient where
  Attributes : List String
  Base : String
  BindDN : String
  BindPassword : String
  GroupFilter : String
  Host : String
  ServerName : String
  UserFilter : String
  Conn : Option Nat
  Port : Int
  InsecureSkipVerify : Bool
  UseSSL : Bool
  SkipTLS : Bool
  ClientCertificates : List Nat
  deriving DecidableEq, Repr

/-- How a call ends: it returns a value, or the goroutine stops on a run-time
error (a nil pointer dereference, an index out of range). -/
inductive Outcome (α : Type) where
  | ret (a : α)
  | nilDeref
  | indexOutOfRange
  deriving DecidableEq, Repr

/-- A Go `map[string]string` that is not nil, as an association list with
one pair per key. -/
abbrev GoMap := List (String × String)

/-- The assignment `m[k] = v`. -/
def GoMap.set (m : GoMap) (k v : String) : GoMap :=
  if m.any (fun p => p.1 == k) then
    m.map (fun p => if p.1 == k then (k, v) else p)
  else
    m ++ [(k, v)]

/-! ## Connection lifecycle -/

/-- The address `fmt.Sprintf("%s:%d", lc.Host, lc.Port)`. -/
def address (lc : LDAPClient) : String :=
  lc.Host ++ ":" ++ toString lc.Port

/-- The `tls.Config` built on the `UseSSL` path of `Connect`. -/
def sslConfig (lc : LDAPClient) : TLSConfig :=
  let config : TLSConfig :=
    { InsecureSkipVerify := lc.InsecureSkipVerify, ServerName := lc.ServerName }
  if 0 < lc.ClientCertificates.length then
    { config with Certificates := lc.ClientCertificates }
  else
    config

/-- `func (lc *LDAPClient) Connect() error`: the returned error (`none` is
nil), the client afterwards, the history afterwards. -/
def Connect (X : Collab) (lc : LDAPClient) (w : List Call) :
    Option Error × LDAPClient × List Call :=
  match lc.Conn with
  | none =>
    if !lc.UseSSL then
      match X.dial w "tcp" (address lc) with
      | .error err => (some err, lc, w ++ [Call.dial "tcp" (address lc)])
      | .ok l =>
        let w1 := w ++ [Call.dial "tcp" (address lc)]
        if !lc.SkipTLS then
          match X.startTLS w1 l { InsecureSkipVerify := true } with
          | some err => (some err, lc, w1 ++ [Call.startTLS l { InsecureSkipVerify := true }])
          | none =>
            (none, { lc with Conn := some l },
              w1 ++ [Call.startTLS l { InsecureSkipVerify := true }])
        else
          (none, { lc with Conn := some l }, w1)
    else
      match X.dialTLS w "tcp" (address lc) (sslConfig lc) with
      | .error err => (some err, lc, w ++ [Call.dialTLS "tcp" (address lc) (sslConfig lc)])
      | .ok l =>
        (none, { lc with Conn := some l }, w ++ [Call.dialTLS "tcp" (address lc) (sslConfig lc)])
  | some _ => (none, lc, w)

/-- `func (lc *LDAPClient) Close()`. -/
def Close (lc : LDAPClient) (w : List Call) : LDAPClient × List Call :=
  match lc.Conn with
  | some c => ({ lc with Conn := none }, w ++ [Call.close c])
  | none => (lc, w)

/-! ## Search execution -/

/-- The method call `lc.Conn.Bind(username, password)`. -/
def connBind (X : Collab) (lc : LDAPClient) (w : List Call) (username password : String) :
    Outcome (Option Error) × List Call :=
  match lc.Conn with
  | none => (Outcome.nilDeref, w)
  | some c => (Outcome.ret (X.bind w c username password), w ++ [Call.bind c username password])

/-- The method call `lc.Conn.Search(searchRequest)`. -/
def connSearch (X : Collab) (lc : LDAPClient) (w : List Call) (req : SearchRequest) :
    Outcome (Except Error SearchResult) × List Call :=
  match lc.Conn with
  | none => (Outcome.nilDeref, w)
  | some c => (Outcome.ret (X.search w c req), w ++ [Call.search c req])

/-- The body of `doSearch` below `defer lc.Close()`. -/
def doSearchBody (X : Collab) (lc : LDAPClient) (w : List Call) (filter : String)
    (attributes : List String) :
    Outcome (Option SearchResult × Option Error) × List Call :=
  let bound : Outcome (Option Error) × List Call :=
    if lc.BindDN ≠ "" ∧ lc.BindPassword ≠ "" then
      connBind X lc w lc.BindDN lc.BindPassword
    else
      (Outcome.ret none, w)
  match bound with
  | (Outcome.nilDeref, w1) => (Outcome.nilDeref, w1)
  | (Outcome.indexOutOfRange, w1) => (Outcome.indexOutOfRange, w1)
  | (Outcome.ret (some err), w1) => (Outcome.ret (none, some err), w1)
  | (Outcome.ret none, w1) =>
    let searchRequest :=
      NewSearchRequest lc.Base Scope.WholeSubtree DerefAliases.NeverDerefAliases 0 0 false
        filter attributes []
    match connSearch X lc w1 searchRequest with
    | (Outcome.nilDeref, w2) => (Outcome.nilDeref, w2)
    | (Outcome.indexOutOfRange, w2) => (Outcome.indexOutOfRange, w2)
    | (Outcome.ret (.error err), w2) => (Outcome.ret (none, some err), w2)
    | (Outcome.ret (.ok sr), w2) => (Outcome.ret (some sr, none), w2)

/-- `func (lc *LDAPClient) doSearch(filter, attributes)`: a failed `Connect`
returns before the `defer`; after it, `Close` runs on every way out. -/
def doSearch (X : Collab) (lc : LDAPClient) (w : List Call) (filter : String)
    (attributes : List String) :
    Outcome (Option SearchResult × Option Error) × LDAPClient × List Call :=
  match Connect X lc w with
  | (some err, lc1, w1) => (Outcome.ret (none, some err), lc1, w1)
  | (none, lc1, w1) =>
    match doSearchBody X lc1 w1 filter attributes with
    | (r, w2) =>
      match Close lc1 w2 with
      | (lc3, w3) => (r, lc3, w3)

/-! ## Query operations -/

/-- The loop `for _, attr := range lc.Attributes { user[attr] = ... }`
started from the empty map. -/
def userMap (attrs : List String) (e : Entry) : GoMap :=
  attrs.foldl (fun user attr => GoMap.set user attr (e.GetAttributeValue attr)) []

/-- The loop `for _, entry := range entries { xs = append(xs, ...) }` started
from the empty slice `[]string{}`. -/
def collectValues (entries : List Entry) (attr : String) : List String :=
  entries.foldl (fun xs entry => xs ++ [entry.GetAttributeValue attr]) []

/-- Lines 93 to 113 of `Authenticate`: what it does with the single matched
entry `sr.Entries[0]`. -/
def verifyPassword (X : Collab) (lc : LDAPClient) (w : List Call) (e0 : Entry)
    (password : String) :
    Outcome (Bool × Option GoMap × Option Error) × LDAPClient × List Call :=
  let userDN := e0.DN
  let user := userMap lc.Attributes e0
  -- Bind as the user to verify their password
  match connBind X lc w userDN password with
  | (Outcome.nilDeref, w2) => (Outcome.nilDeref, lc, w2)
  | (Outcome.indexOutOfRange, w2) => (Outcome.indexOutOfRange, lc, w2)
  | (Outcome.ret (some err), w2) => (Outcome.ret (false, some user, some err), lc, w2)
  | (Outcome.ret none, w2) =>
    -- Rebind as the read only user for any further queries
    if lc.BindDN ≠ "" ∧ lc.BindPassword ≠ "" then
      match connBind X lc w2 lc.BindDN lc.BindPassword with
      | (Outcome.nilDeref, w3) => (Outcome.nilDeref, lc, w3)
      | (Outcome.indexOutOfRange, w3) => (Outcome.indexOutOfRange, lc, w3)
      | (Outcome.ret (some err), w3) => (Outcome.ret (true, some user, some err), lc, w3)
      | (Outcome.ret none, w3) => (Outcome.ret (true, some user, none), lc, w3)
    else
      (Outcome.ret (true, some user, none), lc, w2)

/-- `func (lc *LDAPClient) Authenticate(username, password)`.  The source
binds the search result to `userSearchResult` and then reads `sr`; the
embedding reads the one search result there is. -/
def Authenticate (X : Collab) (lc : LDAPClient) (w : List Call) (username password : String) :
    Outcome (Bool × Option GoMap × Option Error) × LDAPClient × List Call :=
  match doSearch X lc w (X.sprintf lc.UserFilter username) (lc.Attributes ++ ["dn"]) with
  | (Outcome.nilDeref, lc1, w1) => (Outcome.nilDeref, lc1, w1)
  | (Outcome.indexOutOfRange, lc1, w1) => (Outcome.indexOutOfRange, lc1, w1)
  | (Outcome.ret (_, some err), lc1, w1) => (Outcome.ret (false, none, some err), lc1, w1)
  | (Outcome.ret (none, none), lc1, w1) => (Outcome.nilDeref, lc1, w1)
  | (Outcome.ret (some sr, none), lc1, w1) =>
    if sr.Entries.length < 1 then
      (Outcome.ret (false, none, some (Error.New "User does not exist")), lc1, w1)
    else if sr.Entries.length > 1 then
      (Outcome.ret (false, none, some (Error.New "Too many entries returned")), lc1, w1)
    else
      match sr.Entries with
      | [] => (Outcome.indexOutOfRange, lc1, w1)
      | e0 :: _ => verifyPassword X lc1 w1 e0 password

/-- What `GetGroupsOfUser`, `GetAllUsers` and `GetAllGroups` do with the
result of their last search: the error, or the values of `attr` collected
into a fresh slice. -/
def collectResult (attr : String)
    (r : Outcome (Option SearchResult × Option Error) × LDAPClient × List Call) :
    Outcome (Option (List String) × Option Error) × LDAPClient × List Call :=
  match r with
  | (Outcome.nilDeref, lc1, w1) => (Outcome.nilDeref, lc1, w1)
  | (Outcome.indexOutOfRange, lc1, w1) => (Outcome.indexOutOfRange, lc1, w1)
  | (Outcome.ret (_, some err), lc1, w1) => (Outcome.ret (none, some err), lc1, w1)
  | (Outcome.ret (none, none), lc1, w1) => (Outcome.nilDeref, lc1, w1)
  | (Outcome.ret (some sr, none), lc1, w1) =>
    (Outcome.ret (some (collectValues sr.Entries attr), none), lc1, w1)

/-- `func (lc *LDAPClient) GetGroupsOfUser(username)`. -/
def GetGroupsOfUser (X : Collab) (lc : LDAPClient) (w : List Call) (username : String) :
    Outcome (Option (List String) × Option Error) × LDAPClient × List Call :=
  match doSearch X lc w (X.sprintf lc.UserFilter username) ["dn"] with
  | (Outcome.nilDeref, lc1, w1) => (Outcome.nilDeref, lc1, w1)
  | (Outcome.indexOutOfRange, lc1, w1) => (Outcome.indexOutOfRange, lc1, w1)
  | (Outcome.ret (_, some err), lc1, w1) => (Outcome.ret (none, some err), lc1, w1)
  | (Outcome.ret (none, none), lc1, w1) => (Outcome.nilDeref, lc1, w1)
  | (Outcome.ret (some dnSearchResult, none), lc1, w1) =>
    if dnSearchResult.Entries.length ≠ 1 then
      (Outcome.ret (none, some (Error.New "User does not exist")), lc1, w1)
    else
      match dnSearchResult.Entries with
      | [] => (Outcome.indexOutOfRange, lc1, w1)
      | e0 :: _ =>
        let userdn := e0.DN
        collectResult "cn" (doSearch X lc1 w1 (X.sprintf lc1.GroupFilter userdn) ["cn"])

/-- `func (lc *LDAPClient) GetAllUsers(userField)`. -/
def GetAllUsers (X : Collab) (lc : LDAPClient) (w : List Call) (userField : String) :
    Outcome (Option (List String) × Option Error) × LDAPClient × List Call :=
  collectResult userField
    (doSearch X lc w "(&(objectCategory=person)(objectClass=user))" [userField])

/-- `func (lc *LDAPClient) GetAllGroups()`. -/
def GetAllGroups (X : Collab) (lc : LDAPClient) (w : List Call) :
    Outcome (Option (List String) × Option Error) × LDAPClient × List Call :=
  collectResult "cn" (doSearch X lc w "(objectCategory=group)" ["cn"])

/-! ## A mock directory

The directory of the examples: `alice` is in `admins` and `staff`, `bob` is
in `staff`; `readonly` is the service account. -/

/-- Substitution of the first `%s` of a format. -/
def substFirst : List Char → List Char → List Char
  | [], _ => []
  | [c], _ => [c]
  | c :: d :: rest, arg =>
    if c = '%' ∧ d = 's' then arg ++ rest else c :: substFirst (d :: rest) arg

def aliceDN : String := "uid=alice,ou=People,dc=example,dc=com"

def bobDN : String := "uid=bob,ou=People,dc=example,dc=com"

def readonlyDN : String := "uid=readonly,ou=People,dc=example,dc=com"

def aliceEntry : Entry :=
  { DN := aliceDN, Attributes := [("uid", "alice"), ("givenName", "Alice"), ("cn", "alice")] }

def bobEntry : Entry :=
  { DN := bobDN, Attributes := [("uid", "bob"), ("givenName", "Bob"), ("cn", "bob")] }

def adminsEntry : Entry :=
  { DN := "cn=admins,ou=Groups,dc=example,dc=com", Attributes := [("cn", "admins")] }

def staffEntry : Entry :=
  { DN := "cn=staff,ou=Groups,dc=example,dc=com", Attributes := [("cn", "staff")] }

/-- The entries the mock directory returns for a filter, in server order. -/
def mockEntries (filter : String) : List Entry :=
  if filter = "(uid=alice)" then [aliceEntry]
  else if filter = "(uid=bob)" then [bobEntry]
  else if filter = "(uid=*)" then [aliceEntry, bobEntry]
  else if filter = "(memberUid=" ++ aliceDN ++ ")" then [adminsEntry, staffEntry]
  else if filter = "(memberUid=" ++ bobDN ++ ")" then [staffEntry]
  else if filter = "(&(objectCategory=person)(objectClass=user))" then [aliceEntry, bobEntry]
  else if filter = "(objectCategory=group)" then [adminsEntry, staffEntry]
  else []

/-- The DN and password pairs the mock directory accepts. -/
def mockCredentials : List (String × String) :=
  [(aliceDN, "wonderland"), (bobDN, "builder"), (readonlyDN, "readonlypassword")]

/-- The mock protocol library: every dial opens connection number
`w.length`, binds are checked against `mockCredentials`. -/
def mock : Collab :=
  { dial := fun w _ _ => .ok w.length
    startTLS := fun _ _ _ => none
    dialTLS := fun w _ _ _ => .ok w.length
    bind := fun _ _ dn pw =>
      if (dn, pw) ∈ mockCredentials then none else some (Error.ldap "Invalid Credentials")
    search := fun _ _ req => .ok { Entries := mockEntries req.Filter }
    sprintf := fun format arg => String.mk (substFirst format.data arg.data) }

/-- A mock library on which nothing can be reached: every dial fails. -/
def unreachable : Collab :=
  { mock with
    dial := fun _ _ _ => .error (Error.ldap "connection refused")
    dialTLS := fun _ _ _ _ => .error (Error.ldap "connection refused") }

/-- A mock library whose server refuses the TLS upgrade. -/
def noStartTLS : Collab :=
  { mock with startTLS := fun _ _ _ => some (Error.ldap "cannot StartTLS") }

/-- The client of the examples, with the service account of the mock
directory. -/
def exampleClient : LDAPClient :=
  { Attributes := ["givenName", "uid"]
    Base := "dc=example,dc=com"
    BindDN := readonlyDN
    BindPassword := "readonlypassword"
    GroupFilter := "(memberUid=%s)"
    Host := "ldap.example.com"
    ServerName := ""
    UserFilter := "(uid=%s)"
    Conn := none
    Port := 389
    InsecureSkipVerify := false
    UseSSL := false
    SkipTLS := false
    ClientCertificates := [] }

/-- The connections closed in a history, in order, one item per `close`. -/
def closes (w : List Call) : List Nat :=
  w.filterMap (fun call => match call with
    | Call.close c => some c
    | _ => none)

/-- The (DN, password) pairs of the binds in a history, in order. -/
def bindsOf (w : List Call) : List (String × String) :=
  w.filterMap (fun call => match call with
    | Call.bind _ dn pw => some (dn, pw)
    | _ => none)

/-! ## Connection lifecycle: lemmas -/

theorem Connect_held (X : Collab) (lc : LDAPClient) (w : List Call) (c : Nat)
    (h : lc.Conn = some c) : Connect X lc w = (none, lc, w) := by
  unfold Connect
  rw [h]

/-- A failed `Connect` leaves the client as it was, with no connection, and
closes nothing; a successful one leaves a connection held, changes no other
field, closes nothing and binds nothing. -/
theorem Connect_cases (X : Collab) (lc : LDAPClient) (w : List Call) :
    (∃ e w1, Connect X lc w = (some e, lc, w1) ∧ lc.Conn = none ∧
        closes w1 = closes w ∧ bindsOf w1 = bindsOf w ∧ w.length < w1.length) ∨
    (∃ c w1, Connect X lc w = (none, { lc with Conn := some c }, w1) ∧
        closes w1 = closes w ∧ bindsOf w1 = bindsOf w ∧
        (lc.Conn = none → w.length < w1.length)) := by
  unfold Connect
  cases hc : lc.Conn with
  | some c =>
    right
    refine ⟨c, w, ?_, rfl, rfl, by simp⟩
    cases lc
    simp_all
  | none =>
    simp only
    by_cases hssl : lc.UseSSL = true
    · simp only [hssl, Bool.not_true, Bool.false_eq_true, if_false]
      cases hd : X.dialTLS w "tcp" (address lc) (sslConfig lc) with
      | error e =>
        left
        exact ⟨e, _, rfl, trivial, by simp [closes], by simp [bindsOf], by simp⟩
      | ok l =>
        right
        exact ⟨l, _, rfl, by simp [closes], by simp [bindsOf], by simp⟩
    · simp only [Bool.not_eq_true] at hssl
      simp only [hssl, Bool.not_false, if_true]
      cases hd : X.dial w "tcp" (address lc) with
      | error e =>
        left
        exact ⟨e, _, rfl, trivial, by simp [closes], by simp [bindsOf], by simp⟩
      | ok l =>
        by_cases hskip : lc.SkipTLS = true
        · right
          simp only [hskip, Bool.not_true, Bool.false_eq_true, if_false]
          exact ⟨l, _, rfl, by simp [closes], by simp [bindsOf], by simp⟩
        · simp only [Bool.not_eq_true] at hskip
          simp only [hskip, Bool.not_false, if_true]
          cases hs : X.startTLS (w ++ [Call.dial "tcp" (address lc)]) l
              { InsecureSkipVerify := true } with
          | some e =>
            left
            exact ⟨e, _, rfl, trivial, by simp [closes], by simp [bindsOf], by simp⟩
          | none =>
            right
            exact ⟨l, _, rfl, by simp [closes], by simp [bindsOf], by simp⟩

/-! ## Search execution: lemmas -/

/-- The body of `doSearch` run with a connection held: it returns, either
`(nil, err)` or `(sr, nil)`, closes nothing, and its only possible bind is
the service account's. -/
theorem doSearchBody_held (X : Collab) (lc : LDAPClient) (w : List Call) (filter : String)
    (attributes : List String) (c : Nat) (h : lc.Conn = some c) :
    ∃ v w2, doSearchBody X lc w filter attributes = (Outcome.ret v, w2) ∧
      ((∃ e, v = (none, some e)) ∨ (∃ sr, v = (some sr, none))) ∧
      closes w2 = closes w ∧
      (bindsOf w2 = bindsOf w ∨ bindsOf w2 = bindsOf w ++ [(lc.BindDN, lc.BindPassword)]) ∧
      w.length ≤ w2.length := by
  unfold doSearchBody connBind connSearch
  simp only [h]
  by_cases hb : lc.BindDN ≠ "" ∧ lc.BindPassword ≠ ""
  · rw [if_pos hb]
    cases hbind : X.bind w c lc.BindDN lc.BindPassword with
    | some e =>
      exact ⟨_, _, rfl, Or.inl ⟨e, rfl⟩, by simp [closes], Or.inr (by simp [bindsOf]), by simp⟩
    | none =>
      simp only
      cases hsearch : X.search (w ++ [Call.bind c lc.BindDN lc.BindPassword]) c
          (NewSearchRequest lc.Base Scope.WholeSubtree DerefAliases.NeverDerefAliases 0 0 false
            filter attributes []) with
      | error e =>
        exact ⟨_, _, rfl, Or.inl ⟨e, rfl⟩, by simp [closes], Or.inr (by simp [bindsOf]), by simp⟩
      | ok sr =>
        exact ⟨_, _, rfl, Or.inr ⟨sr, rfl⟩, by simp [closes], Or.inr (by simp [bindsOf]), by simp⟩
  · rw [if_neg hb]
    simp only
    cases hsearch : X.search w c
        (NewSearchRequest lc.Base Scope.WholeSubtree DerefAliases.NeverDerefAliases 0 0 false
          filter attributes []) with
    | error e =>
      exact ⟨_, _, rfl, Or.inl ⟨e, rfl⟩, by simp [closes], Or.inl (by simp [bindsOf]), by simp⟩
    | ok sr =>
      exact ⟨_, _, rfl, Or.inr ⟨sr, rfl⟩, by simp [closes], Or.inl (by simp [bindsOf]), by simp⟩

/-- Every run of `doSearch` returns, with `(nil, err)` or `(sr, nil)`, and
leaves the client as it was except that no connection is held.  Either
`Connect` failed and nothing was closed, or `Connect` left connection `c`
held and `c`, nothing else, was closed, once. -/
theorem doSearch_cases (X : Collab) (lc : LDAPClient) (w : List Call) (filter : String)
    (attributes : List String) :
    (∃ e w1, Connect X lc w = (some e, lc, w1) ∧ lc.Conn = none ∧
        doSearch X lc w filter attributes = (Outcome.ret (none, some e), lc, w1) ∧
        closes w1 = closes w ∧ bindsOf w1 = bindsOf w ∧ w.length < w1.length) ∨
    (∃ c wc v w1, Connect X lc w = (none, { lc with Conn := some c }, wc) ∧
        doSearch X lc w filter attributes = (Outcome.ret v, { lc with Conn := none }, w1) ∧
        ((∃ e, v = (none, some e)) ∨ (∃ sr, v = (some sr, none))) ∧
        closes w1 = closes w ++ [c] ∧
        (bindsOf w1 = bindsOf w ∨ bindsOf w1 = bindsOf w ++ [(lc.BindDN, lc.BindPassword)]) ∧
        w.length < w1.length) := by
  rcases Connect_cases X lc w with ⟨e, w1, hc, hn, hcl, hbi, hlen⟩ | ⟨c, wc, hc, hcl, hbi, _⟩
  · left
    refine ⟨e, w1, hc, hn, ?_, hcl, hbi, hlen⟩
    unfold doSearch
    rw [hc]
  · right
    obtain ⟨v, w2, hbody, hv, hcl2, hbi2, hlen2⟩ :=
      doSearchBody_held X { lc with Conn := some c } wc filter attributes c rfl
    have hwc : w.length ≤ wc.length := by
      rcases hconn : lc.Conn with _ | c0
      · have := Connect_cases X lc w
        rcases this with ⟨e, w1, hc1, _⟩ | ⟨c1, w1, hc1, _, _, hl⟩
        · rw [hc] at hc1
          simp at hc1
        · rw [hc] at hc1
          simp only [Prod.mk.injEq, true_and] at hc1
          rw [hc1.2]
          exact le_of_lt (hl hconn)
      · have := Connect_held X lc w c0 hconn
        rw [hc] at this
        simp only [Prod.mk.injEq, true_and] at this
        rw [this.2]
    refine ⟨c, wc, v, w2 ++ [Call.close c], hc, ?_, hv, ?_, ?_, ?_⟩
    · unfold doSearch
      rw [hc]
      simp only [hbody, Close]
    · simp [closes] at hcl2 hcl ⊢
      rw [hcl2, hcl]
    · simp only [bindsOf] at hbi2 hbi ⊢
      simp only [List.filterMap_append, List.filterMap_cons, List.filterMap_nil,
        List.append_nil]
      rw [← hbi]
      exact hbi2
    · simp only [List.length_append, List.length_singleton]
      omega

/-- The client after `doSearch` holds no connection. -/
theorem doSearch_conn (X : Collab) (lc : LDAPClient) (w : List Call) (filter : String)
    (attributes : List String) :
    (doSearch X lc w filter attributes).2.1 = { lc with Conn := none } := by
  rcases doSearch_cases X lc w filter attributes with
    ⟨e, w1, _, hn, hd, _⟩ | ⟨c, wc, v, w1, _, hd, _⟩
  · rw [hd]
    cases lc
    simp_all
  · rw [hd]

/-! ## Connection lifecycle: the transport flags -/

/-- C8: for a client holding no connection, the calls `Connect` makes are
fixed by the flags.  With `UseSSL` it makes one `dialTLS` and nothing else.
With `UseSSL` off and `SkipTLS` on it makes one plaintext `dial` and nothing
else, and returns nil with the dialed connection held exactly when the dial
succeeds.  With both off it makes the plaintext `dial` and, when that
succeeded, one `startTLS` on the dialed connection.  A failing `dial`,
`dialTLS` or `startTLS` is what `Connect` returns, the client unchanged; and
whenever `Connect` returns an error no connection is held. -/
theorem Connect_calls (X : Collab) (lc : LDAPClient) (w : List Call) (h : lc.Conn = none) :
    (lc.UseSSL = true →
      (Connect X lc w).2.2 = w ++ [Call.dialTLS "tcp" (address lc) (sslConfig lc)] ∧
      ∀ e, X.dialTLS w "tcp" (address lc) (sslConfig lc) = .error e →
        Connect X lc w =
          (some e, lc, w ++ [Call.dialTLS "tcp" (address lc) (sslConfig lc)])) ∧
    (lc.UseSSL = false → lc.SkipTLS = true →
      (Connect X lc w).2.2 = w ++ [Call.dial "tcp" (address lc)] ∧
      ∀ l, (X.dial w "tcp" (address lc) = .ok l ↔
        ((Connect X lc w).1 = none ∧ (Connect X lc w).2.1.Conn = some l))) ∧
    (lc.UseSSL = false → lc.SkipTLS = false →
      (∀ e, X.dial w "tcp" (address lc) = .error e →
        (Connect X lc w).2.2 = w ++ [Call.dial "tcp" (address lc)]) ∧
      (∀ l, X.dial w "tcp" (address lc) = .ok l →
        (Connect X lc w).2.2 =
          w ++ [Call.dial "tcp" (address lc), Call.startTLS l { InsecureSkipVerify := true }]) ∧
      (∀ l e, X.dial w "tcp" (address lc) = .ok l →
        X.startTLS (w ++ [Call.dial "tcp" (address lc)]) l { InsecureSkipVerify := true }
          = some e →
        Connect X lc w =
          (some e, lc,
            w ++ [Call.dial "tcp" (address lc),
              Call.startTLS l { InsecureSkipVerify := true }]))) ∧
    (lc.UseSSL = false → ∀ e, X.dial w "tcp" (address lc) = .error e →
      Connect X lc w = (some e, lc, w ++ [Call.dial "tcp" (address lc)])) ∧
    ((Connect X lc w).1 ≠ none → (Connect X lc w).2.1.Conn = none) := by
  refine ⟨?_, ?_, ?_, ?_, ?_⟩
  · intro hssl
    unfold Connect
    simp only [h, hssl, Bool.not_true, Bool.false_eq_true, if_false]
    constructor
    · cases X.dialTLS w "tcp" (address lc) (sslConfig lc) <;> rfl
    · intro e he
      rw [he]
  · intro hssl hskip
    unfold Connect
    simp only [h, hssl, hskip, Bool.not_true, Bool.not_false, Bool.false_eq_true, if_false,
      if_true]
    constructor
    · cases X.dial w "tcp" (address lc) <;> rfl
    · intro l
      cases hd : X.dial w "tcp" (address lc) with
      | error e => simp
      | ok l0 => simp
  · intro hssl hskip
    unfold Connect
    simp only [h, hssl, hskip, Bool.not_false, if_true]
    refine ⟨?_, ?_, ?_⟩
    · intro e he
      rw [he]
    · intro l hl
      rw [hl]
      simp only
      cases X.startTLS (w ++ [Call.dial "tcp" (address lc)]) l { InsecureSkipVerify := true }
        <;> simp
    · intro l e hl he
      rw [hl]
      simp only
      rw [he]
      simp
  · intro hssl e he
    unfold Connect
    simp only [h, hssl, Bool.not_false, if_true]
    rw [he]
  · intro hne
    rcases Connect_cases X lc w with ⟨e, w1, hc, _⟩ | ⟨c, w1, hc, _⟩
    · rw [hc]
      exact h
    · rw [hc] at hne
      exact absurd rfl hne

/-- Instance of C8 on the mock directory: the example client has both flags
off, so `Connect` dials in plaintext and upgrades the dialed connection; on
the server that refuses the upgrade the refusal comes back and no connection
is held. -/
theorem Connect_calls_witness :
    exampleClient.Conn = none ∧
    (Connect mock exampleClient []).2.2 =
      [Call.dial "tcp" "ldap.example.com:389",
        Call.startTLS 0 { InsecureSkipVerify := true }] ∧
    Connect noStartTLS exampleClient [] =
      (some (Error.ldap "cannot StartTLS"), exampleClient,
        [Call.dial "tcp" "ldap.example.com:389",
          Call.startTLS 0 { InsecureSkipVerify := true }]) :=
  ⟨rfl, ((Connect_calls mock exampleClient [] rfl).2.2.1 rfl rfl).2.1 0 rfl,
    ((Connect_calls noStartTLS exampleClient [] rfl).2.2.1 rfl rfl).2.2 0
      (Error.ldap "cannot StartTLS") rfl rfl⟩

/-! ## Connection lifecycle: idempotence -/

/-- C9: with a connection held, `Connect` returns nil, makes no call and
changes nothing; so a `Connect` that follows a `Connect` which returned nil
is such a no-op, and the two together dial once.  `Close` after `Close`
gives the state of the single `Close`, the history included, and that state
holds no connection. -/
theorem Connect_Close_idempotent (X : Collab) (lc : LDAPClient) (w : List Call) :
    (∀ c, lc.Conn = some c → Connect X lc w = (none, lc, w)) ∧
    ((Connect X lc w).1 = none →
      Connect X (Connect X lc w).2.1 (Connect X lc w).2.2 =
        (none, (Connect X lc w).2.1, (Connect X lc w).2.2)) ∧
    Close (Close lc w).1 (Close lc w).2 = Close lc w ∧
    (Close lc w).1.Conn = none := by
  refine ⟨fun c hc => Connect_held X lc w c hc, ?_, ?_, ?_⟩
  · intro hnil
    rcases Connect_cases X lc w with ⟨e, w1, hc, _⟩ | ⟨c, w1, hc, _⟩
    · rw [hc] at hnil
      simp at hnil
    · rw [hc]
      exact Connect_held X _ _ c rfl
  · unfold Close
    cases hc : lc.Conn <;> simp [hc]
  · unfold Close
    cases hc : lc.Conn <;> simp [hc]

/-- Instance of C9 on the mock directory: the second `Connect` adds no call
to the two of the first. -/
theorem Connect_Close_idempotent_witness :
    (Connect mock exampleClient []).1 = none ∧
    Connect mock (Connect mock exampleClient []).2.1 (Connect mock exampleClient []).2.2 =
      (none, (Connect mock exampleClient []).2.1, (Connect mock exampleClient []).2.2) :=
  ⟨rfl, (Connect_Close_idempotent mock exampleClient []).2.1 rfl⟩

/-! ## Search execution: release of the connection -/

/-- What `doSearch` does release: started with no connection held it always
returns, and the client then holds no connection.  When `Connect` left
connection `c` held, the closes of the call are `c`, once, and nothing else;
when `Connect` failed, nothing is closed.  After `GetGroupsOfUser`,
`GetAllUsers` and `GetAllGroups` no connection is held. -/
theorem doSearch_releases (X : Collab) (lc : LDAPClient) (w : List Call) (filter : String)
    (attributes : List String) (h : lc.Conn = none) :
    (∃ v, (doSearch X lc w filter attributes).1 = Outcome.ret v) ∧
    (doSearch X lc w filter attributes).2.1.Conn = none ∧
    ((Connect X lc w).1 ≠ none →
      closes (doSearch X lc w filter attributes).2.2 = closes w) ∧
    (∀ c, (Connect X lc w).2.1.Conn = some c →
      closes (doSearch X lc w filter attributes).2.2 = closes w ++ [c]) ∧
    (∀ username, (GetGroupsOfUser X lc w username).2.1.Conn = none) ∧
    (∀ userField, (GetAllUsers X lc w userField).2.1.Conn = none) ∧
    (GetAllGroups X lc w).2.1.Conn = none := by
  have hcollect : ∀ (attr : String)
      (r : Outcome (Option SearchResult × Option Error) × LDAPClient × List Call),
      (collectResult attr r).2.1 = r.2.1 := by
    intro attr r
    unfold collectResult
    split <;> rfl
  refine ⟨?_, ?_, ?_, ?_, ?_, ?_, ?_⟩
  · rcases doSearch_cases X lc w filter attributes with
      ⟨e, w1, _, _, hd, _⟩ | ⟨c, wc, v, w1, _, hd, _⟩
    · exact ⟨_, by rw [hd]⟩
    · exact ⟨_, by rw [hd]⟩
  · rw [doSearch_conn]
  · intro hne
    rcases doSearch_cases X lc w filter attributes with
      ⟨e, w1, _, _, hd, hcl, _⟩ | ⟨c, wc, v, w1, hc, _⟩
    · rw [hd]
      exact hcl
    · rw [hc] at hne
      exact absurd rfl hne
  · intro c hc
    rcases doSearch_cases X lc w filter attributes with
      ⟨e, w1, hcon, _, _⟩ | ⟨c1, wc, v, w1, hcon, hd, _, hcl, _⟩
    · rw [hcon] at hc
      rw [h] at hc
      cases hc
    · rw [hcon] at hc
      simp only [Option.some.injEq] at hc
      rw [hd, ← hc]
      exact hcl
  · intro username
    unfold GetGroupsOfUser
    have h1 := doSearch_conn X lc w (X.sprintf lc.UserFilter username) ["dn"]
    split
    · next heq => rw [heq] at h1; simp only at h1; rw [h1]
    · next heq => rw [heq] at h1; simp only at h1; rw [h1]
    · next heq => rw [heq] at h1; simp only at h1; rw [h1]
    · next heq => rw [heq] at h1; simp only at h1; rw [h1]
    · next sr lc1 w1 heq =>
      rw [heq] at h1
      simp only at h1
      split
      · rw [h1]
      · split
        · rw [h1]
        · rw [hcollect, doSearch_conn]
  · intro userField
    unfold GetAllUsers
    rw [hcollect, doSearch_conn]
  · unfold GetAllGroups
    rw [hcollect, doSearch_conn]

/-- On the mock directory the one connection of the call, number 0, is closed
once; when nothing can be dialed, nothing is closed. -/
theorem doSearch_releases_mock :
    exampleClient.Conn = none ∧
    (doSearch mock exampleClient [] "(uid=alice)" ["dn"]).2.1.Conn = none ∧
    closes (doSearch mock exampleClient [] "(uid=alice)" ["dn"]).2.2 = [0] ∧
    closes (doSearch unreachable exampleClient [] "(uid=alice)" ["dn"]).2.2 = [] :=
  ⟨rfl, (doSearch_releases mock exampleClient [] "(uid=alice)" ["dn"] rfl).2.1,
    (doSearch_releases mock exampleClient [] "(uid=alice)" ["dn"] rfl).2.2.2.1 0 rfl,
    (doSearch_releases unreachable exampleClient [] "(uid=alice)" ["dn"] rfl).2.2.1
      (by decide)⟩

/-- The path `doSearch` does not release: with both flags off, when the dial
gives connection `l` and the upgrade of `l` is refused, `Connect` returns
before `l` is stored, `doSearch` returns before its `defer`, and the calls
made are the dial and the `startTLS`: `l` is open and never closed. -/
theorem doSearch_upgrade_refused (X : Collab) (lc : LDAPClient) (w : List Call)
    (filter : String) (attributes : List String) (l : Nat) (e : Error)
    (h : lc.Conn = none) (hssl : lc.UseSSL = false) (hskip : lc.SkipTLS = false)
    (hd : X.dial w "tcp" (address lc) = .ok l)
    (ht : X.startTLS (w ++ [Call.dial "tcp" (address lc)]) l { InsecureSkipVerify := true }
      = some e) :
    doSearch X lc w filter attributes =
      (Outcome.ret (none, some e), lc,
        w ++ [Call.dial "tcp" (address lc), Call.startTLS l { InsecureSkipVerify := true }]) ∧
    closes (doSearch X lc w filter attributes).2.2 = closes w := by
  have hc : Connect X lc w =
      (some e, lc,
        w ++ [Call.dial "tcp" (address lc),
          Call.startTLS l { InsecureSkipVerify := true }]) := by
    unfold Connect
    simp only [h, hssl, hskip, Bool.not_false, if_true]
    rw [hd]
    simp only
    rw [ht]
    simp
  have hs : doSearch X lc w filter attributes =
      (Outcome.ret (none, some e), lc,
        w ++ [Call.dial "tcp" (address lc),
          Call.startTLS l { InsecureSkipVerify := true }]) := by
    unfold doSearch
    rw [hc]
  refine ⟨hs, ?_⟩
  rw [hs]
  simp [closes]

/-- C7: on the server that refuses the TLS upgrade the dial of the example
client succeeds with connection 0 and the `startTLS` on it is refused;
`doSearch` returns the refusal with no connection held, and connection 0,
which the dial opened, is not closed: the calls made are the dial and the
`startTLS`, and no `close`. -/
theorem doSearch_refused_upgrade_leaks :
    exampleClient.Conn = none ∧
    noStartTLS.dial [] "tcp" (address exampleClient) = .ok 0 ∧
    noStartTLS.startTLS [Call.dial "tcp" (address exampleClient)] 0
      { InsecureSkipVerify := true } = some (Error.ldap "cannot StartTLS") ∧
    doSearch noStartTLS exampleClient [] "(objectCategory=group)" ["cn"] =
      (Outcome.ret (none, some (Error.ldap "cannot StartTLS")), exampleClient,
        [Call.dial "tcp" "ldap.example.com:389",
          Call.startTLS 0 { InsecureSkipVerify := true }]) ∧
    closes (doSearch noStartTLS exampleClient [] "(objectCategory=group)" ["cn"]).2.2 = [] ∧
    GetAllGroups noStartTLS exampleClient [] =
      (Outcome.ret (none, some (Error.ldap "cannot StartTLS")), exampleClient,
        [Call.dial "tcp" "ldap.example.com:389",
          Call.startTLS 0 { InsecureSkipVerify := true }]) :=
  ⟨rfl, rfl, rfl, rfl, rfl, rfl⟩

/-! ## Query operations: lemmas -/

theorem collectValues_from (attr : String) (entries : List Entry) (acc : List String) :
    entries.foldl (fun xs entry => xs ++ [entry.GetAttributeValue attr]) acc =
      acc ++ entries.map (fun entry => entry.GetAttributeValue attr) := by
  induction entries generalizing acc with
  | nil => simp
  | cons e rest ih =>
    rw [List.foldl_cons, ih]
    simp

/-- The append loop yields one value per entry, in the order of the
entries. -/
theorem collectValues_eq_map (entries : List Entry) (attr : String) :
    collectValues entries attr = entries.map (fun entry => entry.GetAttributeValue attr) := by
  unfold collectValues
  rw [collectValues_from]
  simp

/-- When the user search of `Authenticate` returns exactly one entry, the
password bind is called on the connection field that `doSearch` has just
cleared: the call stops on a nil dereference, and no call is made after the
search. -/
theorem Authenticate_unique (X : Collab) (lc : LDAPClient) (w : List Call)
    (username password : String) (sr : SearchResult) (lc1 : LDAPClient) (w1 : List Call)
    (hs : doSearch X lc w (X.sprintf lc.UserFilter username) (lc.Attributes ++ ["dn"]) =
      (Outcome.ret (some sr, none), lc1, w1))
    (hone : sr.Entries.length = 1) :
    Authenticate X lc w username password = (Outcome.nilDeref, lc1, w1) := by
  have hconn : lc1.Conn = none := by
    have := doSearch_conn X lc w (X.sprintf lc.UserFilter username) (lc.Attributes ++ ["dn"])
    rw [hs] at this
    simp only at this
    rw [this]
  unfold Authenticate
  rw [hs]
  simp only
  rw [if_neg (by omega), if_neg (by omega)]
  cases hE : sr.Entries with
  | nil => rw [hE] at hone; simp at hone
  | cons e0 rest =>
    simp only [verifyPassword, connBind, hconn]

/-- The assignment `m[k] = v` keeps every other pair and leaves `k` among
the keys. -/
theorem GoMap_set_spec (g : String → String) (m : GoMap) (k : String)
    (hm : ∀ p ∈ m, p.2 = g p.1) :
    (∀ p ∈ GoMap.set m k (g k), p.2 = g p.1) ∧
    (∀ a, a ∈ (GoMap.set m k (g k)).map Prod.fst ↔ a ∈ m.map Prod.fst ∨ a = k) := by
  unfold GoMap.set
  by_cases hany : (m.any fun p => p.1 == k) = true
  · rw [if_pos hany]
    have hk : k ∈ m.map Prod.fst := by
      simp only [List.any_eq_true, beq_iff_eq] at hany
      obtain ⟨p, hp, hpk⟩ := hany
      exact List.mem_map.mpr ⟨p, hp, hpk⟩
    constructor
    · intro p hp
      simp only [List.mem_map] at hp
      obtain ⟨q, hq, rfl⟩ := hp
      by_cases hqk : (q.1 == k) = true
      · simp [hqk]
      · simp only [hqk, Bool.false_eq_true, if_false]
        exact hm q hq
    · intro a
      simp only [List.map_map, List.mem_map, Function.comp]
      constructor
      · rintro ⟨q, hq, rfl⟩
        by_cases hqk : (q.1 == k) = true
        · right
          simp [hqk]
        · left
          simp only [hqk, Bool.false_eq_true, if_false]
          exact ⟨q, hq, rfl⟩
      · rintro (⟨q, hq, rfl⟩ | rfl)
        · refine ⟨q, hq, ?_⟩
          by_cases hqk : (q.1 == k) = true
          · simp only [hqk, if_true]
            exact (beq_iff_eq.mp hqk).symm
          · simp only [hqk, Bool.false_eq_true, if_false]
        · simp only [List.mem_map] at hk
          obtain ⟨q, hq, hqk⟩ := hk
          refine ⟨q, hq, ?_⟩
          simp [hqk]
  · rw [if_neg hany]
    constructor
    · intro p hp
      simp only [List.mem_append, List.mem_singleton] at hp
      rcases hp with hp | rfl
      · exact hm p hp
      · rfl
    · intro a
      simp

theorem userMap_from (e : Entry) (attrs : List String) (m : GoMap)
    (hm : ∀ p ∈ m, p.2 = e.GetAttributeValue p.1) :
    (∀ p ∈ attrs.foldl (fun user attr => GoMap.set user attr (e.GetAttributeValue attr)) m,
        p.2 = e.GetAttributeValue p.1) ∧
    (∀ a, a ∈ (attrs.foldl
          (fun user attr => GoMap.set user attr (e.GetAttributeValue attr)) m).map Prod.fst ↔
        a ∈ m.map Prod.fst ∨ a ∈ attrs) := by
  induction attrs generalizing m with
  | nil => exact ⟨hm, fun a => by simp⟩
  | cons k rest ih =>
    obtain ⟨h1, h2⟩ := GoMap_set_spec e.GetAttributeValue m k hm
    obtain ⟨i1, i2⟩ := ih (GoMap.set m k (e.GetAttributeValue k)) h1
    rw [List.foldl_cons]
    refine ⟨i1, fun a => ?_⟩
    rw [i2 a, h2 a]
    simp only [List.mem_cons]
    tauto

/-- The attribute map built from entry `e`: its keys are exactly the
configured names, and each is mapped to the value `e` has for it. -/
theorem userMap_spec (attrs : List String) (e : Entry) :
    (∀ a, a ∈ (userMap attrs e).map Prod.fst ↔ a ∈ attrs) ∧
    (∀ a ∈ attrs, (userMap attrs e).lookup a = some (e.GetAttributeValue a)) := by
  obtain ⟨h1, h2⟩ := userMap_from e attrs [] (by simp)
  have hkeys : ∀ a, a ∈ (userMap attrs e).map Prod.fst ↔ a ∈ attrs := by
    intro a
    unfold userMap
    rw [h2 a]
    simp
  refine ⟨hkeys, ?_⟩
  intro a ha
  have hval : ∀ (m : GoMap), (∀ p ∈ m, p.2 = e.GetAttributeValue p.1) →
      a ∈ m.map Prod.fst → m.lookup a = some (e.GetAttributeValue a) := by
    intro m
    induction m with
    | nil => simp
    | cons p rest ih =>
      intro hp hmem
      obtain ⟨k, v⟩ := p
      by_cases hak : a = k
      · subst hak
        have := hp (a, v) (by simp)
        simp only at this
        simp [List.lookup, this]
      · have hne : (a == k) = false := by simpa using hak
        simp only [List.lookup, hne]
        apply ih
        · intro q hq
          exact hp q (List.mem_cons_of_mem _ hq)
        · simp only [List.map_cons, List.mem_cons] at hmem
          rcases hmem with h | h
          · exact absurd h hak
          · exact h
  exact hval (userMap attrs e) h1 ((hkeys a).mpr ha)

/-- When the user search of `Authenticate` returns no entry, or two or more,
the matching error is returned and nothing is called after the search. -/
theorem Authenticate_count (X : Collab) (lc : LDAPClient) (w : List Call)
    (username password : String) (sr : SearchResult) (lc1 : LDAPClient) (w1 : List Call)
    (hs : doSearch X lc w (X.sprintf lc.UserFilter username) (lc.Attributes ++ ["dn"]) =
      (Outcome.ret (some sr, none), lc1, w1)) :
    (sr.Entries.length = 0 →
      Authenticate X lc w username password =
        (Outcome.ret (false, none, some (Error.New "User does not exist")), lc1, w1)) ∧
    (2 ≤ sr.Entries.length →
      Authenticate X lc w username password =
        (Outcome.ret (false, none, some (Error.New "Too many entries returned")),
          lc1, w1)) := by
  refine ⟨?_, ?_⟩
  · intro h0
    unfold Authenticate
    rw [hs]
    simp only
    rw [if_pos (by omega)]
  · intro h2
    unfold Authenticate
    rw [hs]
    simp only
    rw [if_neg (by omega), if_pos (by omega)]

/-! ## Authenticate -/

/-- C3: when the user search of `Authenticate` succeeds with no entry the
result is `(false, nil, "User does not exist")`, with two or more entries it
is `(false, nil, "Too many entries returned")`.  In both cases the history is
the one `doSearch` left, so `Authenticate` made no call of its own, and the
only bind `doSearch` can have made is the service account's. -/
theorem Authenticate_not_unique (X : Collab) (lc : LDAPClient) (w : List Call)
    (username password : String) (sr : SearchResult) (lc1 : LDAPClient) (w1 : List Call)
    (hs : doSearch X lc w (X.sprintf lc.UserFilter username) (lc.Attributes ++ ["dn"]) =
      (Outcome.ret (some sr, none), lc1, w1)) :
    (sr.Entries.length = 0 →
      Authenticate X lc w username password =
        (Outcome.ret (false, none, some (Error.New "User does not exist")), lc1, w1)) ∧
    (2 ≤ sr.Entries.length →
      Authenticate X lc w username password =
        (Outcome.ret (false, none, some (Error.New "Too many entries returned")), lc1, w1)) ∧
    (bindsOf w1 = bindsOf w ∨ bindsOf w1 = bindsOf w ++ [(lc.BindDN, lc.BindPassword)]) := by
  refine ⟨(Authenticate_count X lc w username password sr lc1 w1 hs).1,
    (Authenticate_count X lc w username password sr lc1 w1 hs).2, ?_⟩
  · rcases doSearch_cases X lc w (X.sprintf lc.UserFilter username) (lc.Attributes ++ ["dn"])
      with ⟨e, w2, _, _, hd, _, hbi, _⟩ | ⟨c, wc, v, w2, _, hd, _, _, hbi, _⟩
    · rw [hs] at hd
      simp only [Prod.mk.injEq] at hd
      rw [hd.2.2]
      exact Or.inl hbi
    · rw [hs] at hd
      simp only [Prod.mk.injEq] at hd
      rw [hd.2.2]
      exact hbi

/-- Instance of C3 on the mock directory: `carol` matches nothing and `*`
matches both users. -/
theorem Authenticate_not_unique_witness :
    Authenticate mock exampleClient [] "carol" "secret" =
      (Outcome.ret (false, none, some (Error.New "User does not exist")),
        (doSearch mock exampleClient [] "(uid=carol)" ["givenName", "uid", "dn"]).2.1,
        (doSearch mock exampleClient [] "(uid=carol)" ["givenName", "uid", "dn"]).2.2) ∧
    Authenticate mock exampleClient [] "*" "secret" =
      (Outcome.ret (false, none, some (Error.New "Too many entries returned")),
        (doSearch mock exampleClient [] "(uid=*)" ["givenName", "uid", "dn"]).2.1,
        (doSearch mock exampleClient [] "(uid=*)" ["givenName", "uid", "dn"]).2.2) :=
  ⟨(Authenticate_not_unique mock exampleClient [] "carol" "secret" { Entries := [] }
      _ _ rfl).1 rfl,
   (Authenticate_not_unique mock exampleClient [] "*" "secret"
      { Entries := [aliceEntry, bobEntry] } _ _ rfl).2.1 (by decide)⟩

/-- C1: on the mock directory the user search for `alice` returns exactly
her entry, the directory accepts her DN with her password and accepts the
service account, and yet `Authenticate` does not return `(true, attrs, nil)`:
it stops on a nil dereference, and the only bind in the history is the
service account's bind made by `doSearch`. -/
theorem Authenticate_accepted_password_stops :
    (doSearch mock exampleClient [] "(uid=alice)" ["givenName", "uid", "dn"]).1 =
      Outcome.ret (some { Entries := [aliceEntry] }, none) ∧
    (∀ w c, mock.bind w c aliceDN "wonderland" = none) ∧
    (∀ w c, mock.bind w c exampleClient.BindDN exampleClient.BindPassword = none) ∧
    (Authenticate mock exampleClient [] "alice" "wonderland").1 = Outcome.nilDeref ∧
    (Authenticate mock exampleClient [] "alice" "wonderland").2.1.Conn = none ∧
    bindsOf (Authenticate mock exampleClient [] "alice" "wonderland").2.2 =
      [(readonlyDN, "readonlypassword")] :=
  ⟨rfl, fun _ _ => rfl, fun _ _ => rfl, rfl, rfl, rfl⟩

/-- C2: on the mock directory the user search for `alice` returns exactly
her entry and the directory rejects her DN with the password `wrong`, and
yet `Authenticate` does not return `(false, attrs, err)`: it stops on a nil
dereference before any bind with that password is made. -/
theorem Authenticate_rejected_password_stops :
    (doSearch mock exampleClient [] "(uid=alice)" ["givenName", "uid", "dn"]).1 =
      Outcome.ret (some { Entries := [aliceEntry] }, none) ∧
    (∀ w c, mock.bind w c aliceDN "wrong" = some (Error.ldap "Invalid Credentials")) ∧
    (Authenticate mock exampleClient [] "alice" "wrong").1 = Outcome.nilDeref ∧
    (aliceDN, "wrong") ∉ bindsOf (Authenticate mock exampleClient [] "alice" "wrong").2.2 :=
  ⟨rfl, fun _ _ => rfl, rfl, by decide⟩

/-! ## GetGroupsOfUser, GetAllUsers, GetAllGroups -/

/-- C4: when the user search returns the single entry `u` and the group
search for `u.DN` returns `gs`, `GetGroupsOfUser` returns `(groups, nil)`
where `groups` is the `cn` value of each entry of `gs`, one per entry and in
the order of `gs`: same length, same positions, nothing sorted or dropped. -/
theorem GetGroupsOfUser_groups (X : Collab) (lc : LDAPClient) (w : List Call)
    (username : String) (u : Entry) (lc1 : LDAPClient) (w1 : List Call)
    (gs : SearchResult) (lc2 : LDAPClient) (w2 : List Call)
    (h1 : doSearch X lc w (X.sprintf lc.UserFilter username) ["dn"] =
      (Outcome.ret (some { Entries := [u] }, none), lc1, w1))
    (h2 : doSearch X lc1 w1 (X.sprintf lc.GroupFilter u.DN) ["cn"] =
      (Outcome.ret (some gs, none), lc2, w2)) :
    GetGroupsOfUser X lc w username =
      (Outcome.ret (some (gs.Entries.map (fun e => e.GetAttributeValue "cn")), none),
        lc2, w2) ∧
    (gs.Entries.map (fun e => e.GetAttributeValue "cn")).length = gs.Entries.length ∧
    ∀ i : Nat, (gs.Entries.map (fun e => e.GetAttributeValue "cn"))[i]? =
      (gs.Entries[i]?).map (fun (e : Entry) => e.GetAttributeValue "cn") := by
  have hlc1 : lc1.GroupFilter = lc.GroupFilter := by
    have := doSearch_conn X lc w (X.sprintf lc.UserFilter username) ["dn"]
    rw [h1] at this
    simp only at this
    rw [this]
  refine ⟨?_, by simp, fun i => by simp⟩
  unfold GetGroupsOfUser
  rw [h1]
  simp only [List.length_singleton, ne_eq, not_true_eq_false, if_false]
  rw [hlc1, h2]
  simp only [collectResult, collectValues_eq_map]

/-- Instance of C4 on the mock directory: `alice` is in `admins` and `staff`,
and the two names come back in server order. -/
theorem GetGroupsOfUser_groups_witness :
    (GetGroupsOfUser mock exampleClient [] "alice").1 =
      Outcome.ret (some ["admins", "staff"], none) :=
  congrArg Prod.fst
    (GetGroupsOfUser_groups mock exampleClient [] "alice" aliceEntry
      (doSearch mock exampleClient [] "(uid=alice)" ["dn"]).2.1
      (doSearch mock exampleClient [] "(uid=alice)" ["dn"]).2.2
      { Entries := [adminsEntry, staffEntry] }
      (GetGroupsOfUser mock exampleClient [] "alice").2.1
      (GetGroupsOfUser mock exampleClient [] "alice").2.2 rfl rfl).1

/-- C5: when the user search of `GetGroupsOfUser` succeeds with no entry or
with more than one, the result is `(nil, "User does not exist")` and the
history is the one the user search left: no further call is made.  With
exactly one entry `u` the result is that of the group search for `u.DN`.
Calls are made after the user search if and only if it returned exactly one
entry. -/
theorem GetGroupsOfUser_unique_or_fail (X : Collab) (lc : LDAPClient) (w : List Call)
    (username : String) (sr : SearchResult) (lc1 : LDAPClient) (w1 : List Call)
    (h1 : doSearch X lc w (X.sprintf lc.UserFilter username) ["dn"] =
      (Outcome.ret (some sr, none), lc1, w1)) :
    (sr.Entries.length ≠ 1 →
      GetGroupsOfUser X lc w username =
        (Outcome.ret (none, some (Error.New "User does not exist")), lc1, w1)) ∧
    (∀ u, sr.Entries = [u] →
      GetGroupsOfUser X lc w username =
        collectResult "cn" (doSearch X lc1 w1 (X.sprintf lc.GroupFilter u.DN) ["cn"])) ∧
    (w1.length < (GetGroupsOfUser X lc w username).2.2.length ↔ sr.Entries.length = 1) := by
  have hlc1 : lc1 = { lc with Conn := none } := by
    have := doSearch_conn X lc w (X.sprintf lc.UserFilter username) ["dn"]
    rw [h1] at this
    exact this
  have hfail : sr.Entries.length ≠ 1 →
      GetGroupsOfUser X lc w username =
        (Outcome.ret (none, some (Error.New "User does not exist")), lc1, w1) := by
    intro hne
    unfold GetGroupsOfUser
    rw [h1]
    simp only
    rw [if_pos hne]
  have hone : ∀ u, sr.Entries = [u] →
      GetGroupsOfUser X lc w username =
        collectResult "cn" (doSearch X lc1 w1 (X.sprintf lc.GroupFilter u.DN) ["cn"]) := by
    intro u hu
    unfold GetGroupsOfUser
    rw [h1]
    simp only [hu, List.length_singleton, ne_eq, not_true_eq_false, if_false]
    rw [hlc1]
  refine ⟨hfail, hone, ?_⟩
  constructor
  · intro hlt
    by_contra hne
    rw [hfail hne] at hlt
    simp at hlt
  · intro hlen
    obtain ⟨u, hu⟩ := List.length_eq_one.mp hlen
    rw [hone u hu]
    have hgrow : w1.length <
        (doSearch X lc1 w1 (X.sprintf lc.GroupFilter u.DN) ["cn"]).2.2.length := by
      rcases doSearch_cases X lc1 w1 (X.sprintf lc.GroupFilter u.DN) ["cn"] with
        ⟨e, w3, _, _, hd, _, _, hl⟩ | ⟨c, wc, v, w3, _, hd, _, _, _, hl⟩
      · rw [hd]
        exact hl
      · rw [hd]
        exact hl
    have hcollect : ∀ (attr : String)
        (r : Outcome (Option SearchResult × Option Error) × LDAPClient × List Call),
        (collectResult attr r).2.2 = r.2.2 := by
      intro attr r
      unfold collectResult
      split <;> rfl
    rw [hcollect]
    exact hgrow

/-- Instance of C5 on the mock directory: `carol` matches nothing. -/
theorem GetGroupsOfUser_unique_or_fail_witness :
    GetGroupsOfUser mock exampleClient [] "carol" =
      (Outcome.ret (none, some (Error.New "User does not exist")),
        (doSearch mock exampleClient [] "(uid=carol)" ["dn"]).2.1,
        (doSearch mock exampleClient [] "(uid=carol)" ["dn"]).2.2) :=
  (GetGroupsOfUser_unique_or_fail mock exampleClient [] "carol" { Entries := [] }
    _ _ rfl).1 (by decide)

/-- C6: when the search of `GetAllUsers a` succeeds with result `sr`, it
returns `(values, nil)` with `values` a non-nil slice holding the value of
`a` of each entry, one per entry in result order, the empty string for an
entry without `a`; `GetAllGroups` does the same with `cn`.  A search that
matches nothing gives the empty slice and no error. -/
theorem GetAll_values (X : Collab) (lc : LDAPClient) (w : List Call) (a : String)
    (sr : SearchResult) (lc1 : LDAPClient) (w1 : List Call) :
    (doSearch X lc w "(&(objectCategory=person)(objectClass=user))" [a] =
        (Outcome.ret (some sr, none), lc1, w1) →
      GetAllUsers X lc w a =
        (Outcome.ret (some (sr.Entries.map (fun e => e.GetAttributeValue a)), none),
          lc1, w1)) ∧
    (doSearch X lc w "(objectCategory=group)" ["cn"] =
        (Outcome.ret (some sr, none), lc1, w1) →
      GetAllGroups X lc w =
        (Outcome.ret (some (sr.Entries.map (fun e => e.GetAttributeValue "cn")), none),
          lc1, w1)) ∧
    (∀ b : String, (sr.Entries.map (fun e => e.GetAttributeValue b)).length =
        sr.Entries.length ∧
      (∀ i : Nat, (sr.Entries.map (fun e => e.GetAttributeValue b))[i]? =
        (sr.Entries[i]?).map (fun (e : Entry) => e.GetAttributeValue b)) ∧
      (∀ e ∈ sr.Entries, e.Attributes.lookup b = none → e.GetAttributeValue b = "") ∧
      (sr.Entries = [] → sr.Entries.map (fun e => e.GetAttributeValue b) = [])) := by
  refine ⟨?_, ?_, ?_⟩
  · intro h
    unfold GetAllUsers
    rw [h]
    simp only [collectResult, collectValues_eq_map]
  · intro h
    unfold GetAllGroups
    rw [h]
    simp only [collectResult, collectValues_eq_map]
  · intro b
    refine ⟨by simp, fun i => by simp, ?_, ?_⟩
    · intro e _ hl
      unfold Entry.GetAttributeValue
      rw [hl]
    · intro hnil
      rw [hnil]
      rfl

/-- Instance of C6 on the mock directory: no user entry has a `mail`
attribute, so each contributes the empty string. -/
theorem GetAll_values_witness :
    GetAllUsers mock exampleClient [] "mail" =
      (Outcome.ret (some ["", ""], none),
        (doSearch mock exampleClient []
          "(&(objectCategory=person)(objectClass=user))" ["mail"]).2.1,
        (doSearch mock exampleClient []
          "(&(objectCategory=person)(objectClass=user))" ["mail"]).2.2) :=
  (GetAll_values mock exampleClient [] "mail" { Entries := [aliceEntry, bobEntry] }
    _ _).1 rfl

end LdapClient
